import Mathlib

/-!
Verification of the secret-santa bot core (src/bot) against its design spec.

The embedding mirrors the Python source:
* `db_manager.py` — `Participant` rows, `DrawResult` rows (modelled as
  `(giver_id, receiver_id)` pairs stored in id order), `DeliveryMessage`
  rows, and the `Database` operations `clear_draw_results`, `store_draw`,
  `get_pairs`, `log_delivery_message`.  Each `Database` method opens its own
  session and commits on its own, so every operation is one committed
  transaction and DB states between operations are reader-visible.
* `matching_logic.py` — `generate_derangement` with its `while attempts < 50`
  rejection-sampling loop.  `random.shuffle` is modelled by an injected
  random source `shuffle : Nat → List Nat → List Nat` (attempt index,
  current receiver list); an honest source satisfies
  `∀ k l, (shuffle k l).Perm l`, which is exactly the contract of
  `random.shuffle` (an in-place permutation).  `raise DrawError msg` is
  modelled as `Except.error msg`.
* `bot_handlers.py` — `notify_pairs` (the notification dispatcher) and
  `start_draw` (the orchestrator).  The outbound channel
  `bot.send_message` is an injected `send : Nat → Nat → Option String`
  taking the attempt index and the chat id and returning `none` on success
  or `some reason` when the send raises.  Side effects of the dispatcher
  are recorded as an explicit `Effect` trace.
-/

/-- Mirror of the `Participant` ORM row (`db_manager.py`), restricted to the
columns the draw core reads: `id`, `telegram_id`, `fio`, `delivery_info`,
`gift_wishes`.  Registration metadata columns (`username`, `first_name`,
`last_name`, `is_admin`, `registered_at`) are not consulted by the draw,
the store or the dispatcher and are omitted. -/
structure Participant where
  id : Nat
  telegram_id : Nat
  fio : String
  delivery_info : String
  gift_wishes : Option String
deriving DecidableEq, Repr

/-- Mirror of the `DeliveryMessage` ORM row (`db_manager.py`), restricted to
the columns `log_delivery_message` writes for a draw notification. -/
structure DeliveryMessage where
  giver_id : Nat
  receiver_id : Nat
  kind : String
  status : String
  text : Option String
  error : Option String
deriving DecidableEq, Repr

/-- The persistent state behind the `Database` class: the `participants`
table, the `draw_results` table and the `delivery_messages` table.
`draw_results` rows are kept in autoincrement-id order, which is insertion
order, so the list order is the order `get_pairs` returns
(`order_by DrawResult.id`). -/
structure DbState where
  participants : List Participant
  draw_results : List (Nat × Nat)
  delivery_messages : List DeliveryMessage
deriving DecidableEq, Repr

/-- `Database.get_participants`: `select(Participant)` over the table. -/
def get_participants (st : DbState) : List Participant :=
  st.participants

/-- `Database.clear_draw_results`: `delete(DrawResult)` then `commit` — one
committed transaction that empties the `draw_results` table. -/
def clear_draw_results (st : DbState) : DbState :=
  { st with draw_results := [] }

/-- `Database.store_draw pairs`: adds one `DrawResult` row per pair (in list
order, so ids follow list order) then `commit` — one committed transaction
that appends the pairs to whatever `draw_results` already holds. -/
def store_draw (pairs : List (Nat × Nat)) (st : DbState) : DbState :=
  { st with draw_results := st.draw_results ++ pairs }

/-- A `DrawResult` row as returned by `get_pairs`: giver and receiver
resolved to their `Participant` rows (`selectinload`). -/
structure DrawRow where
  giver : Participant
  receiver : Participant
deriving DecidableEq, Repr

/-- `Database.get_pairs`: select the `draw_results` rows in id order, inner
join on the giver participant (a row whose giver id matches no participant
is dropped by the join) and resolve the receiver relationship.  The
`receiver_id` foreign key is `nullable=False`, so in any state reachable
through the ORM the receiver lookup also succeeds; a row whose receiver is
missing is likewise not representable, modelled by dropping it. -/
def get_pairs (st : DbState) : List DrawRow :=
  st.draw_results.filterMap fun gr =>
    match st.participants.find? (fun p => p.id == gr.1),
          st.participants.find? (fun p => p.id == gr.2) with
    | some g, some r => some ⟨g, r⟩
    | _, _ => none

/-- `Database.log_delivery_message`: look the giver and the receiver up by
telegram id, fail with `ValueError` (`Except.error`) when either is
missing, otherwise append one `DeliveryMessage` row and commit. -/
def log_delivery_message (st : DbState) (giver_tg receiver_tg : Nat)
    (kind status : String) (text : Option String) (err : Option String) :
    Except String DbState :=
  match st.participants.find? (fun p => p.telegram_id == giver_tg),
        st.participants.find? (fun p => p.telegram_id == receiver_tg) with
  | some g, some r =>
      .ok { st with delivery_messages :=
              st.delivery_messages ++
                [⟨g.id, r.id, kind, status, text, err⟩] }
  | _, _ => .error "giver or receiver not found"

/-! ## matching_logic.py -/

/-- The `DrawError` message raised when the attempt cap is exhausted. -/
def drawErrorMsg : String :=
  "Не удалось подобрать распределение без самодарения"

/-- The acceptance test of `generate_derangement`:
`all(giver != receiver for giver, receiver in zip(participant_ids, receivers))`. -/
def noSelfGift (givers receivers : List Nat) : Bool :=
  (givers.zip receivers).all fun gr => gr.1 != gr.2

/-- The `while attempts < 50` loop of `generate_derangement`.  `fuel` is the
number of remaining iterations (`50 - attempts`), kept structural so the
function computes; `attempts` is the loop counter fed to the random source;
`receivers` is the list `random.shuffle` mutates in place, so each attempt
shuffles the previous attempt's output. -/
def drawLoop (ids : List Nat) (shuffle : Nat → List Nat → List Nat) :
    Nat → Nat → List Nat → Except String (List (Nat × Nat))
  | 0, _, _ => .error drawErrorMsg
  | fuel + 1, attempts, receivers =>
      let receivers2 := shuffle attempts receivers
      if noSelfGift ids receivers2 then .ok (ids.zip receivers2)
      else drawLoop ids shuffle fuel (attempts + 1) receivers2

/-- `generate_derangement` (`matching_logic.py`): extract the participant
ids in input order, copy them into `receivers`, and run up to 50 shuffle
attempts, returning the first candidate with no self-gift positionally
zipped with the original id order, or `DrawError` when the cap is
exhausted. -/
def generate_derangement (participants : List Participant)
    (shuffle : Nat → List Nat → List Nat) :
    Except String (List (Nat × Nat)) :=
  let participant_ids := participants.map (·.id)
  drawLoop participant_ids shuffle 50 0 participant_ids

/-- The receiver list after `k` shuffle calls (the value of `receivers`
when `attempts = k`): `receiversAfter 0 = participant_ids.copy()`, and each
attempt applies the random source to the previous list. -/
def receiversAfter (ids : List Nat) (shuffle : Nat → List Nat → List Nat) :
    Nat → List Nat
  | 0 => ids
  | k + 1 => shuffle k (receiversAfter ids shuffle k)

example :
    generate_derangement
      [⟨1, 11, "a", "x", none⟩, ⟨2, 22, "b", "y", none⟩]
      (fun _ l => l.reverse) = .ok [(1, 2), (2, 1)] := rfl

example :
    generate_derangement
      [⟨1, 11, "a", "x", none⟩, ⟨2, 22, "b", "y", none⟩]
      (fun _ l => l) = .error drawErrorMsg := rfl

/-! ## bot_handlers.py -/

/-- Python's `receiver.gift_wishes or 'не указаны'`: `None` and the empty
string are both falsy and replaced by the default. -/
def wishesText : Option String → String
  | none => "не указаны"
  | some s => if s = "" then "не указаны" else s

/-- The notification text `notify_pairs` builds for one pair, from the
receiver's profile and the configured budget. -/
def notifyText (budget : String) (receiver : Participant) : String :=
  "Поздравляем! Жеребьевка состоялась.\n" ++
  "Твой получатель: " ++ receiver.fio ++ ".\n" ++
  "Адрес доставки: " ++ receiver.delivery_info ++ ".\n" ++
  "Пожелания: " ++ wishesText receiver.gift_wishes ++ ".\n" ++
  "Бюджет подарка: " ++ budget ++ "."

/-- One observable side effect of the dispatcher: an attempted
`bot.send_message` call, or an append to the `delivery_messages` ledger via
`log_delivery_message`.  (`notify_pairs` in the source performs only the
former; the constructor for ledger appends exists so that the absence of
ledger writes is expressible.) -/
inductive Effect where
  | sendAttempt (chat_id : Nat) (text : String)
  | ledgerAppend (giver_tg receiver_tg : Nat) (status : String)
      (err : Option String)
deriving DecidableEq, Repr

/-- Number of ledger appends in an effect trace. -/
def ledgerAppendCount (effects : List Effect) : Nat :=
  effects.countP fun e =>
    match e with
    | .ledgerAppend .. => true
    | _ => false

/-- Number of attempted sends in an effect trace. -/
def sendAttemptCount (effects : List Effect) : Nat :=
  effects.countP fun e =>
    match e with
    | .sendAttempt .. => true
    | _ => false

/-- The aggregate `notify_pairs` produces: the returned triple
`(sent, failed, failures)` plus the trace of side effects it performed. -/
structure NotifyResult where
  sent : Nat
  failed : Nat
  failures : List (Nat × String)
  effects : List Effect
deriving DecidableEq, Repr

/-- The `for draw in pairs` loop of `notify_pairs`: for each row build the
text, attempt `bot.send_message(chat_id=giver.telegram_id, text)`; on
success count it sent, on any exception count it failed and append
`(giver.telegram_id, str(exc))` to `failures`, then continue with the rest.
`i` is the position of the current row in the original pair list; the
injected `send` decides the outcome of attempt `i` to the given chat id. -/
def notifyLoop (send : Nat → Nat → Option String) (budget : String) :
    Nat → List DrawRow → NotifyResult
  | _, [] => ⟨0, 0, [], []⟩
  | i, draw :: rest =>
      let text := notifyText budget draw.receiver
      let tail := notifyLoop send budget (i + 1) rest
      match send i draw.giver.telegram_id with
      | none =>
          ⟨tail.sent + 1, tail.failed, tail.failures,
            .sendAttempt draw.giver.telegram_id text :: tail.effects⟩
      | some err =>
          ⟨tail.sent, tail.failed + 1,
            (draw.giver.telegram_id, err) :: tail.failures,
            .sendAttempt draw.giver.telegram_id text :: tail.effects⟩

/-- `notify_pairs` (`bot_handlers.py`): dispatch one notification per pair,
starting at position 0. -/
def notify_pairs (send : Nat → Nat → Option String) (budget : String)
    (pairs : List DrawRow) : NotifyResult :=
  notifyLoop send budget 0 pairs

/-- How a `start_draw` invocation ends, mirroring the three `return` paths
after the admin check: too few participants, `DrawError` from the
generator, or a completed draw with the dispatcher's summary. -/
inductive DrawOutcome where
  | insufficientParticipants
  | drawFailed (msg : String)
  | success (sent failed : Nat) (failures : List (Nat × String))
deriving DecidableEq, Repr

/-- Everything observable about one `start_draw` run: the final database
state, the sequence of reader-visible database states (initial state plus
the state after each committed transaction, in order), whether
`generate_derangement` was invoked, the rows handed to `notify_pairs`, and
the outcome. -/
structure StartDrawResult where
  db : DbState
  observed : List DbState
  generatorInvoked : Bool
  dispatched : List DrawRow
  outcome : DrawOutcome
deriving DecidableEq, Repr

/-- `start_draw` (`bot_handlers.py`), after the admin guard: fetch the
participants; if fewer than 2, answer and return (no generator call, no DB
write); run `generate_derangement`, and on `DrawError` answer and return
(no DB write); otherwise commit `clear_draw_results`, commit
`store_draw pairs`, read the rows back with `get_pairs`, and hand the
read-back rows to `notify_pairs`. -/
def start_draw (shuffle : Nat → List Nat → List Nat)
    (send : Nat → Nat → Option String) (budget : String)
    (st : DbState) : StartDrawResult :=
  let participants := get_participants st
  if participants.length < 2 then
    ⟨st, [st], false, [], .insufficientParticipants⟩
  else
    match generate_derangement participants shuffle with
    | .error msg => ⟨st, [st], true, [], .drawFailed msg⟩
    | .ok pairs =>
        let st1 := clear_draw_results st
        let st2 := store_draw pairs st1
        let draw_rows := get_pairs st2
        let r := notify_pairs send budget draw_rows
        ⟨st2, [st, st1, st2], true, draw_rows,
          .success r.sent r.failed r.failures⟩

/-- `restart_draw` (`bot_handlers.py`): commit `clear_draw_results`, then
run `start_draw` on the cleared state.  The clear is its own committed
transaction, so the cleared state is observable before the draw runs. -/
def restart_draw (shuffle : Nat → List Nat → List Nat)
    (send : Nat → Nat → Option String) (budget : String)
    (st : DbState) : StartDrawResult :=
  let st0 := clear_draw_results st
  let r := start_draw shuffle send budget st0
  { r with observed := st :: r.observed }

/-! ## Loop lemmas for the generator -/

/-- An honest random source (each call permutes its input) keeps the
receiver list a permutation of the original ids at every attempt. -/
theorem receiversAfter_perm (ids : List Nat)
    (shuffle : Nat → List Nat → List Nat)
    (hshuf : ∀ k l, (shuffle k l).Perm l) :
    ∀ k, (receiversAfter ids shuffle k).Perm ids := by
  intro k
  induction k with
  | zero => exact List.Perm.refl ids
  | succ n ih => exact (hshuf n (receiversAfter ids shuffle n)).trans ih

/-- Complete case analysis of the rejection-sampling loop, for any random
source: starting at attempt `attempts` with the receiver list the source
has produced so far, either every remaining candidate has a self-gift and
the loop raises `DrawError`, or the loop returns the first accepted
candidate zipped positionally with the ids. -/
theorem drawLoop_cases (ids : List Nat)
    (shuffle : Nat → List Nat → List Nat) :
    ∀ fuel attempts,
      (drawLoop ids shuffle fuel attempts
          (receiversAfter ids shuffle attempts) = .error drawErrorMsg ∧
        ∀ k, attempts ≤ k → k < attempts + fuel →
          noSelfGift ids (receiversAfter ids shuffle (k + 1)) = false) ∨
      (∃ k, attempts ≤ k ∧ k < attempts + fuel ∧
        noSelfGift ids (receiversAfter ids shuffle (k + 1)) = true ∧
        drawLoop ids shuffle fuel attempts
            (receiversAfter ids shuffle attempts) =
          .ok (ids.zip (receiversAfter ids shuffle (k + 1)))) := by
  intro fuel
  induction fuel with
  | zero =>
      intro attempts
      exact Or.inl ⟨rfl, fun k hk1 hk2 => absurd hk2 (by omega)⟩
  | succ n ih =>
      intro attempts
      have hstep : shuffle attempts (receiversAfter ids shuffle attempts) =
          receiversAfter ids shuffle (attempts + 1) := rfl
      by_cases hacc :
          noSelfGift ids (receiversAfter ids shuffle (attempts + 1)) = true
      · right
        refine ⟨attempts, le_refl attempts, by omega, hacc, ?_⟩
        simp only [drawLoop]
        rw [hstep, if_pos hacc]
      · have hred : drawLoop ids shuffle (n + 1) attempts
              (receiversAfter ids shuffle attempts) =
            drawLoop ids shuffle n (attempts + 1)
              (receiversAfter ids shuffle (attempts + 1)) := by
          simp only [drawLoop]
          rw [hstep, if_neg hacc]
        rw [hred]
        rcases ih (attempts + 1) with ⟨herr, hall⟩ | ⟨k, hk1, hk2, hk3, hk4⟩
        · left
          refine ⟨herr, fun k hk1 hk2 => ?_⟩
          rcases Nat.eq_or_lt_of_le hk1 with heq | hlt
          · simpa [← heq] using Bool.eq_false_iff.mpr hacc
          · exact hall k hlt (by omega)
        · right
          exact ⟨k, by omega, by omega, hk3, hk4⟩

/-- Specialisation of `drawLoop_cases` to the entry point
`generate_derangement`: either all 50 candidates are rejected and the call
raises `DrawError`, or the call returns the first accepted candidate. -/
theorem gdCases (participants : List Participant)
    (shuffle : Nat → List Nat → List Nat) :
    (generate_derangement participants shuffle = .error drawErrorMsg ∧
      ∀ k, k < 50 → noSelfGift (participants.map (·.id))
        (receiversAfter (participants.map (·.id)) shuffle (k + 1)) = false) ∨
    (∃ k, k < 50 ∧ noSelfGift (participants.map (·.id))
        (receiversAfter (participants.map (·.id)) shuffle (k + 1)) = true ∧
      generate_derangement participants shuffle =
        .ok ((participants.map (·.id)).zip
          (receiversAfter (participants.map (·.id)) shuffle (k + 1)))) := by
  rcases drawLoop_cases (participants.map (·.id)) shuffle 50 0 with
    ⟨herr, hall⟩ | ⟨k, _, hk2, hk3, hk4⟩
  · exact Or.inl ⟨herr, fun k hk => hall k (Nat.zero_le k) (by omega)⟩
  · exact Or.inr ⟨k, by omega, hk3, hk4⟩

/-- A successful `generate_derangement` call returns the positional zip of
the input ids with the first accepted candidate receiver list. -/
theorem gdOk (participants : List Participant)
    (shuffle : Nat → List Nat → List Nat) (pairs : List (Nat × Nat))
    (hok : generate_derangement participants shuffle = .ok pairs) :
    ∃ k, k < 50 ∧ noSelfGift (participants.map (·.id))
        (receiversAfter (participants.map (·.id)) shuffle (k + 1)) = true ∧
      pairs = (participants.map (·.id)).zip
        (receiversAfter (participants.map (·.id)) shuffle (k + 1)) := by
  rcases gdCases participants shuffle with ⟨herr, _⟩ | ⟨k, hk1, hk2, hk3⟩
  · rw [hok] at herr
    exact absurd herr (by simp)
  · rw [hok] at hk3
    exact ⟨k, hk1, hk2, (Except.ok.injEq _ _).mp hk3⟩

/-- With an honest random source, a successful call returns the input ids
zipped against some self-gift-free permutation of those ids. -/
theorem gdOk_perm (participants : List Participant)
    (shuffle : Nat → List Nat → List Nat)
    (hshuf : ∀ k l, (shuffle k l).Perm l) (pairs : List (Nat × Nat))
    (hok : generate_derangement participants shuffle = .ok pairs) :
    ∃ recv, recv.Perm (participants.map (·.id)) ∧
      noSelfGift (participants.map (·.id)) recv = true ∧
      pairs = (participants.map (·.id)).zip recv := by
  rcases gdOk participants shuffle pairs hok with ⟨k, _, hacc, hzip⟩
  exact ⟨receiversAfter (participants.map (·.id)) shuffle (k + 1),
    receiversAfter_perm (participants.map (·.id)) shuffle hshuf (k + 1),
    hacc, hzip⟩

/-- `noSelfGift` says exactly that no zipped pair is a self-gift. -/
theorem noSelfGift_spec (givers receivers : List Nat)
    (h : noSelfGift givers receivers = true) :
    ∀ p ∈ givers.zip receivers, p.1 ≠ p.2 := by
  intro p hp
  exact bne_iff_ne.mp (List.all_eq_true.mp h p hp)

/-- Full characterisation of the dispatcher loop from position `i`:
the counters add up to the number of pairs, the failure list is exactly the
failed attempts (recipient telegram id, reason) in input order, and the
effect trace is one attempted send per pair in input order. -/
theorem notifyLoop_spec (send : Nat → Nat → Option String) (budget : String) :
    ∀ (pairs : List DrawRow) (i : Nat),
      (notifyLoop send budget i pairs).sent +
          (notifyLoop send budget i pairs).failed = pairs.length ∧
      (notifyLoop send budget i pairs).failures =
        (pairs.enumFrom i).filterMap (fun ip =>
          (send ip.1 ip.2.giver.telegram_id).map fun e =>
            (ip.2.giver.telegram_id, e)) ∧
      (notifyLoop send budget i pairs).effects =
        (pairs.enumFrom i).map (fun ip =>
          .sendAttempt ip.2.giver.telegram_id
            (notifyText budget ip.2.receiver)) := by
  intro pairs
  induction pairs with
  | nil => intro i; simp [notifyLoop, List.enumFrom]
  | cons hd tl ih =>
      intro i
      obtain ⟨h1, h2, h3⟩ := ih (i + 1)
      cases hsend : send i hd.giver.telegram_id with
      | none =>
          refine ⟨?_, ?_, ?_⟩ <;>
            simp [notifyLoop, hsend, List.enumFrom, h2, h3]
          omega
      | some e =>
          refine ⟨?_, ?_, ?_⟩ <;>
            simp [notifyLoop, hsend, List.enumFrom, h2, h3]
          omega

/-- `get_pairs` resolves every stored row whose giver id and receiver id
both belong to the participants table, and returns exactly the stored
(giver id, receiver id) pairs in stored order. -/
theorem get_pairs_resolves (parts : List Participant)
    (dres : List (Nat × Nat)) (msgs : List DeliveryMessage) :
    (∀ p ∈ dres, (∃ q ∈ parts, q.id = p.1) ∧ (∃ q ∈ parts, q.id = p.2)) →
    (get_pairs ⟨parts, dres, msgs⟩).map
        (fun r => (r.giver.id, r.receiver.id)) = dres := by
  induction dres with
  | nil => intro _; simp [get_pairs]
  | cons hd tl ih =>
      intro h
      obtain ⟨⟨qg, hqg, hqgid⟩, ⟨qr, hqr, hqrid⟩⟩ := h hd (by simp)
      have hsg : (parts.find? fun p => p.id == hd.1).isSome = true :=
        List.find?_isSome.mpr ⟨qg, hqg, by simp [hqgid]⟩
      have hsr : (parts.find? fun p => p.id == hd.2).isSome = true :=
        List.find?_isSome.mpr ⟨qr, hqr, by simp [hqrid]⟩
      obtain ⟨pg, hpg⟩ := Option.isSome_iff_exists.mp hsg
      obtain ⟨pr, hpr⟩ := Option.isSome_iff_exists.mp hsr
      have hpgid : pg.id = hd.1 := by simpa using List.find?_some hpg
      have hprid : pr.id = hd.2 := by simpa using List.find?_some hpr
      have htl := ih fun p hp => h p (by simp [hp])
      simp only [get_pairs, List.filterMap_cons] at htl ⊢
      rw [hpg, hpr]
      simp only [List.map_cons, htl]
      rw [hpgid, hprid]

/-- Concrete participant rows used to instantiate theorems with
hypotheses. -/
def alice : Participant := ⟨1, 11, "Alice", "Street 1", none⟩

def bob : Participant := ⟨2, 22, "Bob", "Street 2", some "a book"⟩

def carol : Participant := ⟨3, 33, "Carol", "Street 3", some ""⟩

/-- A list permuting a two-element list is one of its two arrangements. -/
theorem perm_pair_eq {x y : Nat} {l : List Nat} (h : l.Perm [x, y]) :
    l = [x, y] ∨ l = [y, x] := by
  match l, h.length_eq with
  | [u, v], _ =>
    have hu : u ∈ [x, y] := h.mem_iff.mp (by simp)
    rcases List.mem_pair.mp hu with hux | huy
    · subst hux
      have hv : [v] = [y] := List.perm_singleton.mp h.cons_inv
      exact Or.inl (by rw [List.cons.injEq] at hv; rw [hv.1])
    · subst huy
      have hswap : (u :: v :: []).Perm (u :: x :: []) :=
        h.trans (List.Perm.swap u x [])
      have hv : [v] = [x] := List.perm_singleton.mp hswap.cons_inv
      exact Or.inr (by rw [List.cons.injEq] at hv; rw [hv.1])

/-! ## Claim theorems -/

/-- C1: for every input sequence of N ≥ 2 distinct participant identifiers
and every honest random source, if `generate_derangement` returns a value,
the value has exactly N (giver, receiver) pairs, no pair has giver equal
to receiver, and the multiset of receivers is a permutation of the
multiset of givers. -/
theorem derangement_output_valid (participants : List Participant)
    (shuffle : Nat → List Nat → List Nat)
    (hshuf : ∀ k l, (shuffle k l).Perm l)
    (hN : 2 ≤ participants.length)
    (hdist : (participants.map (·.id)).Nodup)
    (pairs : List (Nat × Nat))
    (hok : generate_derangement participants shuffle = .ok pairs) :
    pairs.length = participants.length ∧
    (∀ p ∈ pairs, p.1 ≠ p.2) ∧
    (pairs.map Prod.snd).Perm (pairs.map Prod.fst) := by
  obtain ⟨recv, hperm, hacc, hzip⟩ :=
    gdOk_perm participants shuffle hshuf pairs hok
  have hlen : recv.length = (participants.map (·.id)).length :=
    hperm.length_eq
  subst hzip
  refine ⟨?_, noSelfGift_spec _ _ hacc, ?_⟩
  · rw [List.length_zip, hlen, min_self, List.length_map]
  · rw [List.map_fst_zip _ _ (le_of_eq hlen.symm),
      List.map_snd_zip _ _ (le_of_eq hlen)]
    exact hperm

/-- Witness for C1 at a concrete 2-participant input with the reversing
random source. -/
theorem derangement_output_valid_witness :
    ([(1, 2), (2, 1)] : List (Nat × Nat)).length =
        ([alice, bob] : List Participant).length ∧
    (∀ p ∈ ([(1, 2), (2, 1)] : List (Nat × Nat)), p.1 ≠ p.2) ∧
    (([(1, 2), (2, 1)] : List (Nat × Nat)).map Prod.snd).Perm
      (([(1, 2), (2, 1)] : List (Nat × Nat)).map Prod.fst) :=
  derangement_output_valid [alice, bob] (fun _ l => l.reverse)
    (fun _ l => l.reverse_perm) (by decide) (by decide) [(1, 2), (2, 1)] rfl

/-- C3: `generate_derangement` always terminates, for every input and
every random source: its result is fully determined by the first 50
candidates — either some attempt `k < 50` is fixed-point free and the call
returns that candidate, or all 50 attempts have a fixed point and the call
raises `DrawError` instead of looping indefinitely. -/
theorem generator_attempt_cap (participants : List Participant)
    (shuffle : Nat → List Nat → List Nat) :
    (∃ k, k < 50 ∧ noSelfGift (participants.map (·.id))
        (receiversAfter (participants.map (·.id)) shuffle (k + 1)) = true ∧
      generate_derangement participants shuffle =
        .ok ((participants.map (·.id)).zip
          (receiversAfter (participants.map (·.id)) shuffle (k + 1)))) ∨
    (generate_derangement participants shuffle = .error drawErrorMsg ∧
      ∀ k, k < 50 → noSelfGift (participants.map (·.id))
        (receiversAfter (participants.map (·.id)) shuffle (k + 1)) = false) := by
  rcases gdCases participants shuffle with h | ⟨k, hk1, hk2, hk3⟩
  · exact Or.inr h
  · exact Or.inl ⟨k, hk1, hk2, hk3⟩

/-- C8 counterexample: the identity reordering is a possible behaviour of
`random.shuffle`, and under it a 2-participant draw exhausts all 50
attempts and raises `DrawError` — so it is false that every random source
behaviour yields the swap. -/
theorem two_participants_adversarial_cex :
    generate_derangement [alice, bob] (fun _ l => l) =
      .error drawErrorMsg := rfl

/-- C8 (amended): for a 2-participant input with distinct ids and an honest
random source, whenever `generate_derangement` returns a value, that value
is the full swap; a random source whose first 50 candidates all have fixed
points instead raises `DrawError`. -/
theorem two_participants_swap (a b : Participant)
    (shuffle : Nat → List Nat → List Nat)
    (hshuf : ∀ k l, (shuffle k l).Perm l)
    (hab : a.id ≠ b.id) (pairs : List (Nat × Nat))
    (hok : generate_derangement [a, b] shuffle = .ok pairs) :
    pairs = [(a.id, b.id), (b.id, a.id)] := by
  obtain ⟨recv, hperm, hacc, hzip⟩ :=
    gdOk_perm [a, b] shuffle hshuf pairs hok
  have hperm2 : recv.Perm [a.id, b.id] := by simpa using hperm
  rcases perm_pair_eq hperm2 with heq | heq
  · exfalso
    rw [heq] at hacc
    simp [noSelfGift] at hacc
  · rw [heq] at hzip
    simpa using hzip

/-- Witness for the amended C8 at a concrete 2-participant input with the
reversing random source. -/
theorem two_participants_swap_witness :
    ([(1, 2), (2, 1)] : List (Nat × Nat)) =
      [(alice.id, bob.id), (bob.id, alice.id)] :=
  two_participants_swap alice bob (fun _ l => l.reverse)
    (fun _ l => l.reverse_perm) (by decide) [(1, 2), (2, 1)] rfl

/-- C9: the generator pairs the accepted permutation positionally with the
original input order — whenever `generate_derangement` returns, the list
of givers is exactly the input id list, so the i-th pair's giver is the
i-th input participant's identifier. -/
theorem givers_positional (participants : List Participant)
    (shuffle : Nat → List Nat → List Nat)
    (hshuf : ∀ k l, (shuffle k l).Perm l)
    (pairs : List (Nat × Nat))
    (hok : generate_derangement participants shuffle = .ok pairs) :
    pairs.map Prod.fst = participants.map (·.id) ∧
    ∀ i, (h1 : i < pairs.length) → (h2 : i < participants.length) →
      (pairs.get ⟨i, h1⟩).1 = (participants.get ⟨i, h2⟩).id := by
  obtain ⟨recv, hperm, _, hzip⟩ :=
    gdOk_perm participants shuffle hshuf pairs hok
  have hfst : pairs.map Prod.fst = participants.map (·.id) := by
    rw [hzip]
    exact List.map_fst_zip _ _ (le_of_eq hperm.length_eq.symm)
  refine ⟨hfst, ?_⟩
  intro i h1 h2
  have h1m : i < (pairs.map Prod.fst).length := by
    rw [List.length_map]; exact h1
  have h2m : i < (participants.map (·.id)).length := by
    rw [List.length_map]; exact h2
  have e1 : (pairs.map Prod.fst)[i]? = (participants.map (·.id))[i]? := by
    rw [hfst]
  rw [List.getElem?_eq_getElem h1m, List.getElem?_eq_getElem h2m] at e1
  have e2 := Option.some.inj e1
  rw [List.get_eq_getElem, List.get_eq_getElem]
  simpa using e2

/-- Witness for C9 at a concrete 2-participant input with the reversing
random source. -/
theorem givers_positional_witness :
    ([(1, 2), (2, 1)] : List (Nat × Nat)).map Prod.fst =
        ([alice, bob] : List Participant).map (·.id) ∧
    ∀ i, (h1 : i < ([(1, 2), (2, 1)] : List (Nat × Nat)).length) →
      (h2 : i < ([alice, bob] : List Participant).length) →
      (([(1, 2), (2, 1)] : List (Nat × Nat)).get ⟨i, h1⟩).1 =
        (([alice, bob] : List Participant).get ⟨i, h2⟩).id :=
  givers_positional [alice, bob] (fun _ l => l.reverse)
    (fun _ l => l.reverse_perm) [(1, 2), (2, 1)] rfl

/-- C10: a direct call on a single-element participant list never returns:
every permutation of one element is the identity, so with an honest random
source every one of the 50 attempts has a fixed point and the call always
raises `DrawError` — the generator rejects N = 1 only by exhausting its
cap, not by a precondition check. -/
theorem single_participant_always_fails (p : Participant)
    (shuffle : Nat → List Nat → List Nat)
    (hshuf : ∀ k l, (shuffle k l).Perm l) :
    generate_derangement [p] shuffle = .error drawErrorMsg := by
  rcases gdCases [p] shuffle with ⟨herr, _⟩ | ⟨k, _, hacc, _⟩
  · exact herr
  · exfalso
    have hperm := receiversAfter_perm ([p].map (·.id)) shuffle hshuf (k + 1)
    have heq : receiversAfter ([p].map (·.id)) shuffle (k + 1) = [p.id] :=
      List.perm_singleton.mp (by simpa using hperm)
    rw [heq] at hacc
    simp [noSelfGift] at hacc

/-- Witness for C10 at a concrete single participant with the identity
random source. -/
theorem single_participant_always_fails_witness :
    generate_derangement [alice] (fun _ l => l) = .error drawErrorMsg :=
  single_participant_always_fails alice (fun _ l => l)
    (fun _ l => List.Perm.refl l)

/-- Counting with a predicate that is constant on the image of a map. -/
theorem countP_map_const {α β : Type} (p : β → Bool) (f : α → β)
    (l : List α) (b : Bool) (h : ∀ a, p (f a) = b) :
    (l.map f).countP p = if b then l.length else 0 := by
  induction l with
  | nil => cases b <;> rfl
  | cons x xs ih =>
      cases b with
      | false => simpa [List.countP_cons, h] using ih
      | true => simp [List.countP_cons, h, ih]

/-- Fixture rows and states used to instantiate theorems with
hypotheses. -/
def rowAB : DrawRow := ⟨alice, bob⟩

def rowBA : DrawRow := ⟨bob, alice⟩

/-- A database state holding a previous assignment set for [alice, bob]. -/
def stOld : DbState := ⟨[alice, bob], [(2, 1), (1, 2)], []⟩

/-- A database state with a single registered participant and a previous
assignment set. -/
def stSingle : DbState := ⟨[alice], [(2, 1), (1, 2)], []⟩

/-- C4: for every sequence of pairs, every random source behaviour of the
outbound channel and every budget, the dispatcher processes every pair
(one attempted send per pair, so one failure never prevents later
attempts), the counters satisfy delivered + failed = number of pairs, and
the failure list is exactly the (recipient telegram id, reason) of the
failed attempts in input order. -/
theorem notify_isolation_summary (send : Nat → Nat → Option String)
    (budget : String) (pairs : List DrawRow) :
    (notify_pairs send budget pairs).sent +
        (notify_pairs send budget pairs).failed = pairs.length ∧
    (notify_pairs send budget pairs).failures =
      pairs.enum.filterMap (fun ip =>
        (send ip.1 ip.2.giver.telegram_id).map fun e =>
          (ip.2.giver.telegram_id, e)) ∧
    sendAttemptCount (notify_pairs send budget pairs).effects =
      pairs.length := by
  obtain ⟨h1, h2, h3⟩ := notifyLoop_spec send budget pairs 0
  refine ⟨h1, h2, ?_⟩
  rw [show (notify_pairs send budget pairs).effects = _ from h3]
  simp only [sendAttemptCount]
  rw [countP_map_const _ _ _ true (fun a => rfl)]
  simp [List.enumFrom_length]

/-- C5 counterexample: dispatching k = 2 pairs appends zero DeliveryOutcome
records to the ledger — `notify_pairs` never invokes the ledger append, so
it is false that k ledger records for those attempts exist. -/
theorem dispatch_no_ledger_cex :
    ¬ (ledgerAppendCount
        (notify_pairs (fun _ _ => none) "500" [rowAB, rowBA]).effects =
      ([rowAB, rowBA] : List DrawRow).length) := by decide

/-- C5 (amended): every notification attempt leaves the delivery ledger
untouched: for every random source behaviour, budget and pair list, the
dispatcher's effect trace contains zero ledger appends — the storage-layer
append `log_delivery_message` exists but `notify_pairs` never calls it. -/
theorem dispatch_never_writes_ledger (send : Nat → Nat → Option String)
    (budget : String) (pairs : List DrawRow) :
    ledgerAppendCount (notify_pairs send budget pairs).effects = 0 := by
  obtain ⟨_, _, h3⟩ := notifyLoop_spec send budget pairs 0
  rw [show (notify_pairs send budget pairs).effects = _ from h3]
  simp only [ledgerAppendCount]
  rw [countP_map_const _ _ _ false (fun a => rfl)]
  simp

/-- C2 counterexample: in a successful draw over `stOld` the committed,
reader-visible states are [old set, empty set, new set]; the middle state
has the old pairs removed and the new pairs not yet written, so the
clear-then-write is not one atomic transition. -/
theorem replace_not_atomic_cex :
    ¬ (∀ s ∈ (start_draw (fun _ l => l.reverse) (fun _ _ => none) "500"
          stOld).observed,
        s.draw_results = stOld.draw_results ∨
        s.draw_results = [(1, 2), (2, 1)]) := by decide

/-- C2 (amended): the replacement is two separately committed
transactions, not one atomic unit: the clear commits first, leaving the
empty assignment set reader-visible, then the insert commits, leaving
exactly the new pairs; a draw that fails between the two commits leaves
the assignment set empty — the previous assignment set is lost, not left
in place. -/
theorem replace_two_commits (st : DbState) (pairs : List (Nat × Nat)) :
    (clear_draw_results st).draw_results = [] ∧
    (store_draw pairs (clear_draw_results st)).draw_results = pairs ∧
    (st.draw_results ≠ [] →
      (clear_draw_results st).draw_results ≠ st.draw_results) := by
  refine ⟨rfl, by simp [store_draw, clear_draw_results], ?_⟩
  intro h
  simpa [clear_draw_results] using Ne.symm h

/-- Witness for the amended C2 at a concrete state with a non-empty
previous assignment set. -/
theorem replace_two_commits_witness :
    (clear_draw_results stOld).draw_results = [] ∧
    (store_draw [(1, 2), (2, 1)] (clear_draw_results stOld)).draw_results =
      [(1, 2), (2, 1)] ∧
    (clear_draw_results stOld).draw_results ≠ stOld.draw_results :=
  ⟨(replace_two_commits stOld [(1, 2), (2, 1)]).1,
    (replace_two_commits stOld [(1, 2), (2, 1)]).2.1,
    (replace_two_commits stOld [(1, 2), (2, 1)]).2.2 (by decide)⟩

/-- C6: invoked with fewer than 2 participants, the orchestrator stops at
the precondition with the insufficient-participants outcome and no side
effects: the generator is not invoked, the database (in particular the
stored assignment set) is unchanged, and nothing is dispatched. -/
theorem insufficient_participants_guard (shuffle : Nat → List Nat → List Nat)
    (send : Nat → Nat → Option String) (budget : String) (st : DbState)
    (h : st.participants.length < 2) :
    start_draw shuffle send budget st =
      ⟨st, [st], false, [], .insufficientParticipants⟩ := by
  simp [start_draw, get_participants, h]

/-- Witness for C6 at a concrete single-participant state (N = 1) with a
previous assignment set in place. -/
theorem insufficient_participants_guard_witness :
    start_draw (fun _ l => l.reverse) (fun _ _ => none) "500" stSingle =
      ⟨stSingle, [stSingle], false, [], .insufficientParticipants⟩ :=
  insufficient_participants_guard (fun _ l => l.reverse) (fun _ _ => none)
    "500" stSingle (by decide)

/-- C7: after a successful draw over N participants, the stored
assignments read back by `get_pairs` are exactly the N pairs produced by
that draw (same giver/receiver ids, count = N), and the rows handed to the
dispatcher are those read-back stored rows, taken from the committed
database state. -/
theorem readback_roundtrip (shuffle : Nat → List Nat → List Nat)
    (send : Nat → Nat → Option String) (budget : String) (st : DbState)
    (hshuf : ∀ k l, (shuffle k l).Perm l)
    (hN : 2 ≤ st.participants.length)
    (pairs : List (Nat × Nat))
    (hok : generate_derangement st.participants shuffle = .ok pairs) :
    (start_draw shuffle send budget st).dispatched =
        get_pairs (start_draw shuffle send budget st).db ∧
    (start_draw shuffle send budget st).dispatched.map
        (fun r => (r.giver.id, r.receiver.id)) = pairs ∧
    (start_draw shuffle send budget st).dispatched.length =
        st.participants.length ∧
    (start_draw shuffle send budget st).db.draw_results = pairs := by
  obtain ⟨recv, hperm, _, hzip⟩ :=
    gdOk_perm st.participants shuffle hshuf pairs hok
  have hmem : ∀ p ∈ pairs,
      (∃ q ∈ st.participants, q.id = p.1) ∧
      (∃ q ∈ st.participants, q.id = p.2) := by
    intro p hp
    rw [hzip] at hp
    obtain ⟨hp1, hp2⟩ := List.of_mem_zip hp
    have hp2m : p.2 ∈ st.participants.map (·.id) := hperm.mem_iff.mp hp2
    obtain ⟨qg, hqg, hqgid⟩ := List.mem_map.mp hp1
    obtain ⟨qr, hqr, hqrid⟩ := List.mem_map.mp hp2m
    exact ⟨⟨qg, hqg, hqgid⟩, ⟨qr, hqr, hqrid⟩⟩
  have hsteq : store_draw pairs (clear_draw_results st) =
      ⟨st.participants, pairs, st.delivery_messages⟩ := by
    simp [store_draw, clear_draw_results]
  have hread : (get_pairs (store_draw pairs (clear_draw_results st))).map
      (fun r => (r.giver.id, r.receiver.id)) = pairs := by
    rw [hsteq]
    exact get_pairs_resolves st.participants pairs st.delivery_messages hmem
  have hplen : pairs.length = st.participants.length := by
    rw [hzip, List.length_zip, hperm.length_eq, min_self, List.length_map]
  have hglen : (get_pairs (store_draw pairs (clear_draw_results st))).length
      = pairs.length := by
    have := congrArg List.length hread
    simpa using this
  have hR : start_draw shuffle send budget st =
      ⟨store_draw pairs (clear_draw_results st),
        [st, clear_draw_results st,
          store_draw pairs (clear_draw_results st)],
        true,
        get_pairs (store_draw pairs (clear_draw_results st)),
        .success
          (notify_pairs send budget
            (get_pairs (store_draw pairs (clear_draw_results st)))).sent
          (notify_pairs send budget
            (get_pairs (store_draw pairs (clear_draw_results st)))).failed
          (notify_pairs send budget
            (get_pairs (store_draw pairs (clear_draw_results st)))).failures⟩
      := by
    simp only [start_draw, get_participants]
    rw [if_neg (by omega : ¬ st.participants.length < 2), hok]
  rw [hR]
  refine ⟨rfl, hread, hglen.trans hplen, ?_⟩
  rw [hsteq]

/-- Witness for C7 at a concrete 2-participant state with a previous
assignment set, the reversing random source and an always-succeeding
channel. -/
theorem readback_roundtrip_witness :
    (start_draw (fun _ l => l.reverse) (fun _ _ => none) "500"
        stOld).dispatched =
      get_pairs (start_draw (fun _ l => l.reverse) (fun _ _ => none) "500"
        stOld).db ∧
    (start_draw (fun _ l => l.reverse) (fun _ _ => none) "500"
        stOld).dispatched.map (fun r => (r.giver.id, r.receiver.id)) =
      [(1, 2), (2, 1)] ∧
    (start_draw (fun _ l => l.reverse) (fun _ _ => none) "500"
        stOld).dispatched.length = stOld.participants.length ∧
    (start_draw (fun _ l => l.reverse) (fun _ _ => none) "500"
        stOld).db.draw_results = [(1, 2), (2, 1)] :=
  readback_roundtrip (fun _ l => l.reverse) (fun _ _ => none) "500" stOld
    (fun _ l => l.reverse_perm) (by decide) [(1, 2), (2, 1)] rfl
